import Mathlib

/-!
# Verification of the encrypted wallet custody layer and swap lifecycle

Shallow embedding of the `create_wallet` repository:

* `walletGenerator.ts` / `tronWalletGenerator.ts` — password-based encryption
  of private keys (PBKDF2 key derivation, AES-256-CBC with PKCS#7 padding,
  hex-encoded ciphertext, salt and iv), and the Tron address validator.
* `db/MockDatabase.ts` — the in-memory `IWalletDatabase` implementation.
* `db/MySQLDatabase.ts` (in `DatabaseFactory.ts`) — the relational
  implementation, interpreted over a table-as-list abstraction of its SQL.
* `services/WalletService.ts` — wallet generation and storage.
* `services/TransactionService.ts` (`SwapService`) — swap creation and the
  reconciliation pass `updatePendingSwaps`.

External collaborators (node `crypto`'s AES block permutation and PBKDF2, the
chain SDK key generators, the ChangeNow HTTP client) are parameters of the
embedding; everything the repository's own code does with them (CBC chaining
with PKCS#7 padding as selected by `createCipheriv('aes-256-cbc', ...)`,
hex encoding, key derivation call discipline, store updates, status
projection, error wrapping) is modelled concretely.

Bytes are `Nat` values below 256; strings are Lean `String`s.
-/

namespace CreateWallet


/-! ## Hex encoding (`Buffer.toString('hex')` / `Buffer.from(s, 'hex')`) -/

/-- Hex digit for a value below 16, lowercase as produced by node's
`Buffer.toString('hex')`. -/
def hexChar (n : Nat) : Char :=
  if n < 10 then Char.ofNat (48 + n) else Char.ofNat (87 + n)

/-- Value of one hex digit; accepts both cases like `Buffer.from(s, 'hex')`. -/
def hexVal (c : Char) : Option Nat :=
  if 48 ≤ c.toNat ∧ c.toNat ≤ 57 then some (c.toNat - 48)
  else if 97 ≤ c.toNat ∧ c.toNat ≤ 102 then some (c.toNat - 87)
  else if 65 ≤ c.toNat ∧ c.toNat ≤ 70 then some (c.toNat - 55)
  else none

/-- Byte list to lowercase hex character list (`Buffer.toString('hex')`). -/
def bytesToHex : List Nat → List Char
  | [] => []
  | b :: bs => hexChar (b / 16) :: hexChar (b % 16) :: bytesToHex bs

/-- Hex character list back to bytes.  `Buffer.from(s, 'hex')` agrees with
this on well-formed hex strings (the only ones produced by the encryption
path); on malformed input node truncates instead, which no verified code
path reaches, so malformed input is mapped to `none`. -/
def hexToBytes : List Char → Option (List Nat)
  | [] => some []
  | c1 :: c2 :: cs => do
    let h ← hexVal c1
    let l ← hexVal c2
    let t ← hexToBytes cs
    pure ((16 * h + l) :: t)
  | [_] => none

/-! ## PKCS#7 padding and CBC chaining

`crypto.createCipheriv('aes-256-cbc', key, iv)` selects CBC mode over the
AES-256 block permutation with PKCS#7 padding (block size 16); `update` +
`final` on the decipher strips the padding and throws on an invalid pad.
The AES permutation itself is an external primitive of node `crypto` and is
a parameter (`blockEnc` / `blockDec`) below. -/

/-- PKCS#7 pad length for a message of `n` bytes: always in `1..16`. -/
def padLen (n : Nat) : Nat := 16 - n % 16

/-- PKCS#7 padding: append `padLen` copies of the byte `padLen`. -/
def pkcs7pad (l : List Nat) : List Nat :=
  l ++ List.replicate (padLen l.length) (padLen l.length)

/-- PKCS#7 unpadding as performed by `decipher.final`: the last byte `p`
must be in `1..16` and the last `p` bytes must all equal `p`; otherwise the
decipher throws (modelled as `none`). -/
def pkcs7unpad (l : List Nat) : Option (List Nat) :=
  match l.getLast? with
  | none => none
  | some p =>
    if p = 0 ∨ 16 < p then none
    else if l.length < p then none
    else if l.drop (l.length - p) = List.replicate p p then
      some (l.take (l.length - p))
    else none

/-- Fuel-driven block splitter (structural recursion so that concrete
instances evaluate inside the kernel); the fuel is always at least the
list length at the call site. -/
def chunks16Fuel : Nat → List Nat → List (List Nat)
  | _, [] => []
  | 0, _ :: _ => []
  | fuel + 1, b :: bs => ((b :: bs).take 16) :: chunks16Fuel fuel ((b :: bs).drop 16)

/-- Split a byte list into 16-byte blocks (the last block may be short if
the input length is not a multiple of 16; encryption only ever chunks padded
input). -/
def chunks16 (l : List Nat) : List (List Nat) := chunks16Fuel l.length l

/-- CBC encryption over a block permutation: each plaintext block is xored
with the previous ciphertext block (the iv for the first) before applying
the block cipher. -/
def cbcEnc (blockEnc : List Nat → List Nat) (iv : List Nat) :
    List (List Nat) → List (List Nat)
  | [] => []
  | b :: bs =>
    let c := blockEnc (List.zipWith Nat.xor iv b)
    c :: cbcEnc blockEnc c bs

/-- CBC decryption over the inverse block permutation. -/
def cbcDec (blockDec : List Nat → List Nat) (iv : List Nat) :
    List (List Nat) → List (List Nat)
  | [] => []
  | c :: cs => List.zipWith Nat.xor iv (blockDec c) :: cbcDec blockDec c cs

/-- A "byte block" in the sense of the AES-256-CBC interface: 16 bytes. -/
def ByteBlock (b : List Nat) : Prop := b.length = 16 ∧ ∀ x ∈ b, x < 256

/-! ## The SecretCipher of `walletGenerator.ts`

`generateEncryptedWallet` (key generation aside) derives a 32-byte key with
`pbkdf2Sync(password, salt, 100000, 32, 'sha256')` and encrypts the private
key with AES-256-CBC under a fresh iv, returning hex-encoded fields;
`decryptWallet` re-derives the key from the stored salt and reverses the
cipher, node throwing on bad padding (modelled as `none`).  PBKDF2 and the
AES block permutation are node-`crypto` primitives, taken as parameters
`pbkdf2` (a deterministic function of password and salt — the fixed
iteration count, key length and hash are what make the two call sites
agree) and `aesEnc`/`aesDec` (keyed block permutation and its inverse). -/

/-- `EncryptedWallet` record of `walletGenerator.ts` (all fields as stored:
ciphertext, salt and iv are hex strings). -/
structure EncryptedWallet where
  address : String
  encryptedPrivateKey : String
  salt : String
  iv : String
deriving DecidableEq

/-- The encryption path of `EthereumWalletGenerator.generateEncryptedWallet`
(lines 22–48): the freshly drawn salt (already hex), iv (raw bytes) and the
generated wallet's address and private-key bytes enter as arguments because
they come from `crypto.randomBytes` / `ethers.Wallet.createRandom`, which
are external randomness. -/
def generateEncryptedWallet (pbkdf2 : String → String → List Nat)
    (aesEnc : List Nat → List Nat → List Nat)
    (address : String) (privateKey : List Nat) (salt : String)
    (iv : List Nat) (password : String) : EncryptedWallet :=
  let key := pbkdf2 password salt
  let ciphertext := (cbcEnc (aesEnc key) iv (chunks16 (pkcs7pad privateKey))).flatten
  { address := address
    encryptedPrivateKey := ⟨bytesToHex ciphertext⟩
    salt := salt
    iv := ⟨bytesToHex iv⟩ }

/-- `EthereumWalletGenerator.decryptWallet` (lines 57–77): re-derive the key
from the stored salt, parse the hex iv and ciphertext, CBC-decrypt and strip
the PKCS#7 pad; any failure (malformed hex, wrong block length, bad pad)
is the node decipher throwing, modelled as `none`. -/
def decryptWallet (pbkdf2 : String → String → List Nat)
    (aesDec : List Nat → List Nat → List Nat)
    (w : EncryptedWallet) (password : String) : Option (List Nat) :=
  let key := pbkdf2 password w.salt
  match hexToBytes w.iv.data, hexToBytes w.encryptedPrivateKey.data with
  | some iv, some ct =>
    if ct.length % 16 = 0 then
      pkcs7unpad ((cbcDec (aesDec key) iv (chunks16 ct)).flatten)
    else none
  | _, _ => none

/-! ### Concrete block-cipher instantiation for closed witnesses

`aesEnc`/`aesDec`/`pbkdf2` are abstract parameters; the closed witnesses
instantiate them with a concrete keyed permutation (xor with the
byte-reduced, zero-padded key) and a concrete deterministic key-derivation
function, which satisfy exactly the interface assumed of the node `crypto`
primitives. -/

/-- Byte-reduce and zero-pad a key to `n` bytes. -/
def fitKey (n : Nat) (key : List Nat) : List Nat :=
  (key.map (fun x => x % 256) ++ List.replicate n 0).take n

/-- Concrete keyed block permutation: xor with the fitted key.  Its own
inverse, length-preserving, byte-preserving. -/
def xorCipher (key block : List Nat) : List Nat :=
  List.zipWith Nat.xor (fitKey block.length key) block

/-- Concrete deterministic key-derivation stand-in for `pbkdf2Sync`. -/
def demoKdf (password salt : String) : List Nat :=
  fitKey 32 ((password.data ++ salt.data).map Char.toNat)

/-! ## Tron address validator (`tronWalletGenerator.ts`) -/

/-- One character of the Base58 alphabet of the validator's regex
`^[123456789ABCDEFGHJKLMNPQRSTUVWXYZabcdefghijkmnopqrstuvwxyz]+$`
(no `0`, `I`, `O`, `l`). -/
def isBase58Char (c : Char) : Bool :=
  "123456789ABCDEFGHJKLMNPQRSTUVWXYZabcdefghijkmnopqrstuvwxyz".data.contains c

/-- `TronWalletGenerator.validateTronAddress`: reject when the address is
falsy (empty), does not start with `'T'` (`head? ≠ some 'T'` models
`startsWith('T')`), or has length ≠ 34; otherwise test the Base58 regex
(at least one character, all from the alphabet). -/
def validateTronAddress (address : String) : Bool :=
  if address.data.isEmpty || address.data.head? != some 'T'
      || address.length != 34 then
    false
  else
    !address.data.isEmpty && address.data.all isBase58Char

/-! ## Data model (`types/db.ts`) -/

/-- `walletType` enum of `WalletRecord`. -/
inductive WalletType
  | ethereum
  | bitcoin
  | solana
  | tron
deriving DecidableEq

/-- `transactionType` enum of `TransactionRecord`. -/
inductive TxType
  | send
  | receive
  | swap
deriving DecidableEq

/-- Coarse persisted transaction status. -/
inductive TxStatus
  | pending
  | completed
  | failed
deriving DecidableEq

/-- Fine-grained swap status reported by the ChangeNow gateway
(`SwapStatus['status']` in `api/ChangeNowAPI.ts`). -/
inductive FineStatus
  | waiting
  | confirming
  | exchanging
  | sending
  | finished
  | failed
  | refunded
deriving DecidableEq

/-- `WalletRecord` of `types/db.ts`.  `Date` fields are modelled as `Nat`
instants supplied by the caller (`new Date()` / `NOW()` is ambient wall
clock). -/
structure WalletRecord where
  id : Nat
  userId : String
  walletType : WalletType
  address : String
  encryptedPrivateKey : String
  salt : String
  iv : String
  network : Option String
  chainId : Option Nat
  createdAt : Nat
  updatedAt : Nat
deriving DecidableEq

/-- `TransactionRecord` of `types/db.ts`. -/
structure TransactionRecord where
  id : Nat
  walletId : Nat
  transactionType : TxType
  fromAddress : String
  toAddress : String
  amount : String
  currency : String
  fee : String
  status : TxStatus
  hash : String
  chainId : Option Nat
  fromChainId : Option Nat
  toChainId : Option Nat
  timestamp : Nat
deriving DecidableEq

/-- `CreateWalletData` of `types/db.ts`. -/
structure CreateWalletData where
  walletType : WalletType
  address : String
  encryptedPrivateKey : String
  salt : String
  iv : String
  network : Option String
  chainId : Option Nat
deriving DecidableEq

/-- `Omit<TransactionRecord, 'id' | 'timestamp'>` as passed to
`recordTransaction`. -/
structure CreateTransactionData where
  walletId : Nat
  transactionType : TxType
  fromAddress : String
  toAddress : String
  amount : String
  currency : String
  fee : String
  status : TxStatus
  hash : String
  chainId : Option Nat
  fromChainId : Option Nat
  toChainId : Option Nat
deriving DecidableEq

/-- The partial-update argument of `updateTransaction` restricted to the
fields the services ever patch (`status`, `hash`, `fee` — the same set the
relational implementation's `SET` clause supports); spread semantics:
present fields override. -/
structure TxPatch where
  status : Option TxStatus
  hash : Option String
  fee : Option String
deriving DecidableEq

/-- `{...tx, ...data}` for a `TxPatch`. -/
def applyTxPatch (t : TransactionRecord) (p : TxPatch) : TransactionRecord :=
  { t with
    status := p.status.getD t.status
    hash := p.hash.getD t.hash
    fee := p.fee.getD t.fee }

/-- ASCII fragment of JavaScript `String.prototype.toLowerCase` (the
verified properties only involve ASCII letter case). -/
def jsToLower (s : String) : String :=
  ⟨s.data.map fun c =>
    if 65 ≤ c.toNat ∧ c.toNat ≤ 90 then Char.ofNat (c.toNat + 32) else c⟩

/-! ## In-memory store (`db/MockDatabase.ts`)

Every operation first runs `ensureConnected`, which throws when the store
is not connected (modelled as `Except.error`). -/

/-- In-memory state of `MockDatabase`. -/
structure MockDatabase where
  wallets : List WalletRecord
  transactions : List TransactionRecord
  walletIdCounter : Nat
  transactionIdCounter : Nat
  connected : Bool
deriving DecidableEq

/-- The error message of `MockDatabase.ensureConnected`. -/
def notConnectedMsg : String := "Database not connected. Call connect() first."

instance exceptDecEq {ε α : Type} [DecidableEq ε] [DecidableEq α] :
    DecidableEq (Except ε α) := fun x y =>
  match x, y with
  | .ok a, .ok b =>
    if h : a = b then isTrue (by rw [h])
    else isFalse (fun hc => h (by injection hc))
  | .ok _, .error _ => isFalse (fun hc => Except.noConfusion hc)
  | .error _, .ok _ => isFalse (fun hc => Except.noConfusion hc)
  | .error e, .error f =>
    if h : e = f then isTrue (by rw [h])
    else isFalse (fun hc => h (by injection hc))

namespace MockDatabase

/-- The `WalletRecord` that `createWallet` constructs from its input
(`id: this.walletIdCounter++`, both dates set to now). -/
def mkWalletRecord (id : Nat) (userId : String) (w : CreateWalletData)
    (now : Nat) : WalletRecord :=
  { id := id
    userId := userId
    walletType := w.walletType
    address := w.address
    encryptedPrivateKey := w.encryptedPrivateKey
    salt := w.salt
    iv := w.iv
    network := w.network
    chainId := w.chainId
    createdAt := now
    updatedAt := now }

/-- `MockDatabase.connect` (the dev-only `seedTestData` call seeds
nothing). -/
def connect (s : MockDatabase) : MockDatabase :=
  if s.connected then s else { s with connected := true }

/-- `MockDatabase.disconnect`. -/
def disconnect (s : MockDatabase) : MockDatabase :=
  if s.connected then { s with connected := false } else s

/-- `MockDatabase.createWallet`: push the new record and bump the id
counter. -/
def createWallet (s : MockDatabase) (userId : String) (w : CreateWalletData)
    (now : Nat) : Except String (WalletRecord × MockDatabase) :=
  if !s.connected then .error notConnectedMsg else
  let wallet := mkWalletRecord s.walletIdCounter userId w now
  .ok (wallet,
    { s with
      wallets := s.wallets ++ [wallet]
      walletIdCounter := s.walletIdCounter + 1 })

/-- `MockDatabase.getWallet`: first wallet matching the user id exactly and
the address case-insensitively. -/
def getWallet (s : MockDatabase) (userId address : String) :
    Except String (Option WalletRecord) :=
  if !s.connected then .error notConnectedMsg else
  .ok (s.wallets.find? fun w =>
    w.userId == userId && jsToLower w.address == jsToLower address)

/-- `MockDatabase.getWalletById`. -/
def getWalletById (s : MockDatabase) (walletId : Nat) :
    Except String (Option WalletRecord) :=
  if !s.connected then .error notConnectedMsg else
  .ok (s.wallets.find? fun w => w.id == walletId)

/-- `MockDatabase.getWalletsByUser`. -/
def getWalletsByUser (s : MockDatabase) (userId : String) :
    Except String (List WalletRecord) :=
  if !s.connected then .error notConnectedMsg else
  .ok (s.wallets.filter fun w => w.userId == userId)

/-- `MockDatabase.getWalletsByChainId`: exact match on user id and chain
id. -/
def getWalletsByChainId (s : MockDatabase) (userId : String) (chainId : Nat) :
    Except String (List WalletRecord) :=
  if !s.connected then .error notConnectedMsg else
  .ok (s.wallets.filter fun w => w.userId == userId && w.chainId == some chainId)

/-- `MockDatabase.deleteWallet`: drop the wallet (and only the wallet) from
`wallets`, reporting whether anything was removed. -/
def deleteWallet (s : MockDatabase) (walletId : Nat) :
    Except String (Bool × MockDatabase) :=
  if !s.connected then .error notConnectedMsg else
  let wallets' := s.wallets.filter fun w => w.id != walletId
  .ok (wallets'.length != s.wallets.length, { s with wallets := wallets' })

/-- `MockDatabase.recordTransaction`. -/
def recordTransaction (s : MockDatabase) (t : CreateTransactionData)
    (now : Nat) : Except String (TransactionRecord × MockDatabase) :=
  if !s.connected then .error notConnectedMsg else
  let tx : TransactionRecord :=
    { id := s.transactionIdCounter
      walletId := t.walletId
      transactionType := t.transactionType
      fromAddress := t.fromAddress
      toAddress := t.toAddress
      amount := t.amount
      currency := t.currency
      fee := t.fee
      status := t.status
      hash := t.hash
      chainId := t.chainId
      fromChainId := t.fromChainId
      toChainId := t.toChainId
      timestamp := now }
  .ok (tx,
    { s with
      transactions := s.transactions ++ [tx]
      transactionIdCounter := s.transactionIdCounter + 1 })

/-- `MockDatabase.getTransactionsByWallet`. -/
def getTransactionsByWallet (s : MockDatabase) (walletId : Nat) :
    Except String (List TransactionRecord) :=
  if !s.connected then .error notConnectedMsg else
  .ok (s.transactions.filter fun t => t.walletId == walletId)

/-- `MockDatabase.getTransactionsByHash`: first transaction whose hash
matches case-insensitively. -/
def getTransactionsByHash (s : MockDatabase) (hash : String) :
    Except String (Option TransactionRecord) :=
  if !s.connected then .error notConnectedMsg else
  .ok (s.transactions.find? fun t => jsToLower t.hash == jsToLower hash)

/-- Modelled from the spec: `getTransactionsByStatus` is declared on
`IWalletDatabase` (`types/db.ts`) and specified in §6 of the design
(`getTransactionsByStatus(status) -> TransactionRecord[]`), but its
implementation is not among the provided sources; modelled as the status
filter the spec describes. -/
def getTransactionsByStatus (s : MockDatabase) (status : TxStatus) :
    Except String (List TransactionRecord) :=
  if !s.connected then .error notConnectedMsg else
  .ok (s.transactions.filter fun t => t.status == status)

/-- Replace the element found by `findIndex(t => t.id === id)` (the first
match) with its patched version. -/
def patchFirst : List TransactionRecord → Nat → TxPatch → List TransactionRecord
  | [], _, _ => []
  | t :: ts, id, p =>
    if t.id == id then applyTxPatch t p :: ts else t :: patchFirst ts id p

/-- `MockDatabase.updateTransaction`: `false` when no transaction has the
id, otherwise spread-update the found record. -/
def updateTransaction (s : MockDatabase) (id : Nat) (p : TxPatch) :
    Except String (Bool × MockDatabase) :=
  if !s.connected then .error notConnectedMsg else
  if s.transactions.any (fun t => t.id == id) then
    .ok (true, { s with transactions := patchFirst s.transactions id p })
  else
    .ok (false, s)

end MockDatabase

/-! ## Relational store (`MySQLDatabase` in `db/DatabaseFactory.ts`)

The SQL statements are interpreted over a table-as-list abstraction (one
list per table, `WHERE` as filter); only the operations the claims need are
modelled.  `ORDER BY timestamp DESC` only permutes a result list and is
omitted. -/

/-- State of `MySQLDatabase`: the two tables plus whether `connection` is
non-null. -/
structure MySQLDatabase where
  wallets : List WalletRecord
  transactions : List TransactionRecord
  connected : Bool
deriving DecidableEq

namespace MySQLDatabase

/-- `MySQLDatabase.deleteWallet`: first
`DELETE FROM transactions WHERE wallet_id = ?`, then
`DELETE FROM wallets WHERE id = ?`, reporting whether a wallet row was
affected. -/
def deleteWallet (s : MySQLDatabase) (walletId : Nat) :
    Except String (Bool × MySQLDatabase) :=
  if !s.connected then .error notConnectedMsg else
  let transactions' := s.transactions.filter fun t => t.walletId != walletId
  let wallets' := s.wallets.filter fun w => w.id != walletId
  .ok (wallets'.length != s.wallets.length,
    { s with wallets := wallets', transactions := transactions' })

/-- `MySQLDatabase.getTransactionsByWallet`:
`SELECT * FROM transactions WHERE wallet_id = ?`. -/
def getTransactionsByWallet (s : MySQLDatabase) (walletId : Nat) :
    Except String (List TransactionRecord) :=
  if !s.connected then .error notConnectedMsg else
  .ok (s.transactions.filter fun t => t.walletId == walletId)

end MySQLDatabase

/-! ## Exchange gateway (`api/ChangeNowAPI.ts`)

The HTTP client is an external collaborator; the gateway is modelled as the
response each endpoint produces for given call arguments (`Except.error` =
the axios call / mock throwing). -/

/-- `SwapRate` of `ChangeNowAPI.ts` (chain-id echoes omitted — never read
back by the services). -/
structure SwapRate where
  estimatedAmount : String
  rate : String
  fee : String
  networkFee : String
deriving DecidableEq

/-- `SwapTransaction` of `ChangeNowAPI.ts`, restricted to the `id` field —
the only field `SwapService.createSwap` consumes (`hash: swap.id`). -/
structure SwapTransaction where
  id : String
deriving DecidableEq

/-- `SwapStatus` of `ChangeNowAPI.ts`. -/
structure SwapStatusInfo where
  status : FineStatus
  payinHash : Option String
  payoutHash : Option String
deriving DecidableEq

/-- The three endpoints of `ChangeNowAPI` consumed by `SwapService`, as
functions of their call arguments. -/
structure ChangeNowAPI where
  createTransaction : String → String → String → String → String →
    Option Nat → Option Nat → Except String SwapTransaction
  getExchangeRate : String → String → String → Option Nat → Option Nat →
    Except String SwapRate
  getTransactionStatus : String → Except String SwapStatusInfo

/-- `error.message || 'Unknown error'`. -/
def orUnknown (e : String) : String := if e = "" then "Unknown error" else e

/-! ## `SwapService` (`services/TransactionService.ts`) -/

namespace SwapService

/-- `SwapService.createSwap`: look up the wallet (throwing
`Wallet with ID .. not found` when absent), create the external order, fetch
a quote for the fee, record one pending swap transaction; the surrounding
`catch` rewraps any error as `Failed to create swap: ...`. -/
def createSwap (api : ChangeNowAPI) (s : MockDatabase) (walletId : Nat)
    (fromCurrency toCurrency fromAmount toAddress refundAddress : String)
    (fromChainId toChainId : Option Nat) (now : Nat) :
    Except String (TransactionRecord × MockDatabase) :=
  let inner : Except String (TransactionRecord × MockDatabase) :=
    match MockDatabase.getWalletById s walletId with
    | .error e => .error e
    | .ok none => .error ("Wallet with ID " ++ toString walletId ++ " not found")
    | .ok (some wallet) =>
      match api.createTransaction fromCurrency toCurrency fromAmount
          toAddress refundAddress fromChainId toChainId with
      | .error e => .error e
      | .ok swap =>
        match api.getExchangeRate fromCurrency toCurrency fromAmount
            fromChainId toChainId with
        | .error e => .error e
        | .ok rateData =>
          MockDatabase.recordTransaction s
            { walletId := walletId
              transactionType := .swap
              fromAddress := wallet.address
              toAddress := toAddress
              amount := fromAmount
              currency := fromCurrency
              fee := rateData.fee
              status := .pending
              hash := swap.id
              chainId := fromChainId
              fromChainId := fromChainId
              toChainId := toChainId } now
  match inner with
  | .ok r => .ok r
  | .error e => .error ("Failed to create swap: " ++ orUnknown e)

/-- The status projection inside `updatePendingSwaps` (lines 299–307):
`finished ↦ completed`, `failed | refunded ↦ failed`, otherwise
`pending`. -/
def mapSwapStatus (st : FineStatus) : TxStatus :=
  if st = .finished then .completed
  else if st = .failed ∨ st = .refunded then .failed
  else .pending

/-- One iteration of the `updatePendingSwaps` loop: query the gateway,
project the status, write only on change and count successful updates; the
per-record `catch` turns any failure into "log and continue with the
accumulator unchanged". -/
def updatePendingSwapsStep (api : ChangeNowAPI) (acc : MockDatabase × Nat)
    (swap : TransactionRecord) : MockDatabase × Nat :=
  match api.getTransactionStatus swap.hash with
  | .error _ => acc
  | .ok swapStatus =>
    let newStatus := mapSwapStatus swapStatus.status
    if newStatus ≠ TxStatus.pending then
      match MockDatabase.updateTransaction acc.1 swap.id
          { status := some newStatus, hash := none, fee := none } with
      | .error _ => acc
      | .ok (updated, s') => (s', if updated then acc.2 + 1 else acc.2)
    else
      (acc.1, acc.2)

/-- `SwapService.updatePendingSwaps`: scan the pending swap-kind records,
reconcile each against the gateway, return the number of records whose
status was successfully updated; the outer `catch` rewraps a scan-level
failure as `Failed to update pending swaps: ...`. -/
def updatePendingSwaps (api : ChangeNowAPI) (s : MockDatabase) :
    Except String (Nat × MockDatabase) :=
  match MockDatabase.getTransactionsByStatus s .pending with
  | .error e => .error ("Failed to update pending swaps: " ++ orUnknown e)
  | .ok pendingSwaps =>
    let swaps := pendingSwaps.filter fun tx => tx.transactionType == TxType.swap
    let r := swaps.foldl (updatePendingSwapsStep api) (s, 0)
    .ok (r.2, r.1)

end SwapService

/-! ## `WalletService` (`services/WalletService.ts`) -/

namespace WalletService

/-- JavaScript `chainId || CHAIN_IDS.ETHEREUM_MAINNET`: `undefined` and `0`
are falsy. -/
def jsOrChainId (chainId : Option Nat) (dflt : Nat) : Nat :=
  match chainId with
  | none => dflt
  | some c => if c = 0 then dflt else c

/-- The `CreateWalletData` built for the Ethereum wallet in
`generateAndStoreWallets` (lines 48–55): `chainId` defaults to chain id 1
(Ethereum mainnet) when absent. -/
def ethWalletData (ethW : EncryptedWallet) (chainId : Option Nat) :
    CreateWalletData :=
  { walletType := .ethereum
    address := ethW.address
    encryptedPrivateKey := ethW.encryptedPrivateKey
    salt := ethW.salt
    iv := ethW.iv
    network := none
    chainId := some (jsOrChainId chainId 1) }

/-- Generator output of `bitcoinWalletGenerator.ts` (the non-Ethereum
generators' outputs share the `EncryptedWallet` shape; Bitcoin adds
`network`). -/
structure EncryptedBitcoinWallet where
  address : String
  encryptedPrivateKey : String
  salt : String
  iv : String
  network : String
deriving DecidableEq

/-- The `CreateWalletData` for the Bitcoin wallet (lines 60–67). -/
def btcWalletData (btcW : EncryptedBitcoinWallet) : CreateWalletData :=
  { walletType := .bitcoin
    address := btcW.address
    encryptedPrivateKey := btcW.encryptedPrivateKey
    salt := btcW.salt
    iv := btcW.iv
    network := some btcW.network
    chainId := none }

/-- The `CreateWalletData` for the Solana / Tron wallets (lines 72–78 and
83–89; the two differ only in `walletType`). -/
def plainWalletData (t : WalletType) (w : EncryptedWallet) : CreateWalletData :=
  { walletType := t
    address := w.address
    encryptedPrivateKey := w.encryptedPrivateKey
    salt := w.salt
    iv := w.iv
    network := none
    chainId := none }

/-- `WalletService.generateAndStoreWallets`: store an Ethereum, a Bitcoin, a
Solana and a Tron wallet for the user, in that order.  The four generator
outputs enter as arguments (they come from the chain SDKs' randomness);
Solana and Tron reuse the `EncryptedWallet` shape. -/
def generateAndStoreWallets (s : MockDatabase) (userId : String)
    (chainId : Option Nat) (ethW : EncryptedWallet)
    (btcW : EncryptedBitcoinWallet) (solW tronW : EncryptedWallet)
    (now : Nat) : Except String MockDatabase :=
  match MockDatabase.createWallet s userId (ethWalletData ethW chainId) now with
  | .error e => .error e
  | .ok (_, s1) =>
    match MockDatabase.createWallet s1 userId (btcWalletData btcW) now with
    | .error e => .error e
    | .ok (_, s2) =>
      match MockDatabase.createWallet s2 userId
          (plainWalletData .solana solW) now with
      | .error e => .error e
      | .ok (_, s3) =>
        match MockDatabase.createWallet s3 userId
            (plainWalletData .tron tronW) now with
        | .error e => .error e
        | .ok (_, s4) => .ok s4

end WalletService

/-! ## Concrete sample data for closed theorems and witnesses -/

/-- A stored wallet record. -/
def wallet1 : WalletRecord :=
  { id := 1
    userId := "alice"
    walletType := .ethereum
    address := "0xAbC123"
    encryptedPrivateKey := "enc"
    salt := "salt"
    iv := "iv"
    network := none
    chainId := some 1
    createdAt := 0
    updatedAt := 0 }

/-- A stored transaction owned by `wallet1`. -/
def tx1 : TransactionRecord :=
  { id := 1
    walletId := 1
    transactionType := .send
    fromAddress := "0xAbC123"
    toAddress := "0xDef"
    amount := "1.5"
    currency := "ETH"
    fee := "0.002"
    status := .completed
    hash := "0xHash1"
    chainId := some 1
    fromChainId := none
    toChainId := none
    timestamp := 0 }

/-- A connected in-memory store holding `wallet1` and `tx1`. -/
def mockDb1 : MockDatabase :=
  { wallets := [wallet1]
    transactions := [tx1]
    walletIdCounter := 2
    transactionIdCounter := 2
    connected := true }

/-- `mockDb1` after the wallet row is removed (transactions untouched —
what `MockDatabase.deleteWallet` actually produces). -/
def mockDb1Deleted : MockDatabase :=
  { wallets := []
    transactions := [tx1]
    walletIdCounter := 2
    transactionIdCounter := 2
    connected := true }

/-- The same content as a relational store. -/
def mysqlDb1 : MySQLDatabase :=
  { wallets := [wallet1], transactions := [tx1], connected := true }

/-- `mysqlDb1` after the cascading delete. -/
def mysqlDb1Deleted : MySQLDatabase :=
  { wallets := [], transactions := [], connected := true }

/-- A connected, empty in-memory store. -/
def emptyDb : MockDatabase :=
  { wallets := []
    transactions := []
    walletIdCounter := 1
    transactionIdCounter := 1
    connected := true }

/-- A concrete gateway: order creation yields id `cn-1`, the status lookup
fails for hash `bad` and reports `finished` for every other hash. -/
def demoApi : ChangeNowAPI :=
  { createTransaction := fun _ _ _ _ _ _ _ => .ok { id := "cn-1" }
    getExchangeRate := fun _ _ amount _ _ =>
      .ok { estimatedAmount := amount
            rate := "0.05"
            fee := "0.01"
            networkFee := "0.0005" }
    getTransactionStatus := fun h =>
      if h == "bad" then .error "HTTP 500"
      else .ok { status := .finished, payinHash := none, payoutHash := none } }

/-- `tx1` as a pending swap-order record with external hash `cn-1`. -/
def txPendingCn1 : TransactionRecord :=
  { tx1 with transactionType := .swap, status := .pending, hash := "cn-1" }

/-- The same record once reconciled to `completed`. -/
def txCompletedCn1 : TransactionRecord :=
  { tx1 with transactionType := .swap, status := .completed, hash := "cn-1" }

/-- `mockDb1` holding the single pending swap record. -/
def dbPendingCn1 : MockDatabase := { mockDb1 with transactions := [txPendingCn1] }

/-- `dbPendingCn1` after the swap record is reconciled. -/
def dbCompletedCn1 : MockDatabase :=
  { mockDb1 with transactions := [txCompletedCn1] }

/-- A pending swap record whose gateway lookup fails (`demoApi` throws for
hash `bad`). -/
def badTx : TransactionRecord :=
  { tx1 with id := 2, transactionType := .swap, status := .pending, hash := "bad" }

/-- The `TransactionRecord` that a successful `createSwap` persists (the
argument of its `recordTransaction` call with the store-assigned id and
timestamp). -/
def mkSwapRecord (s0 : MockDatabase) (w : WalletRecord)
    (fromCurrency fromAmount toAddress : String) (rate : SwapRate)
    (swapTx : SwapTransaction) (fromChainId toChainId : Option Nat)
    (now : Nat) : TransactionRecord :=
  { id := s0.transactionIdCounter
    walletId := w.id
    transactionType := .swap
    fromAddress := w.address
    toAddress := toAddress
    amount := fromAmount
    currency := fromCurrency
    fee := rate.fee
    status := .pending
    hash := swapTx.id
    chainId := fromChainId
    fromChainId := fromChainId
    toChainId := toChainId
    timestamp := now }

/-- A connected store holding `wallet1` and no transactions. -/
def dbWalletOnly : MockDatabase :=
  { wallets := [wallet1]
    transactions := []
    walletIdCounter := 2
    transactionIdCounter := 2
    connected := true }

/-- Concrete Ethereum generator output for witnesses. -/
def ethW1 : EncryptedWallet :=
  { address := "0xEth1", encryptedPrivateKey := "e1", salt := "s1", iv := "i1" }

/-- Concrete Bitcoin generator output for witnesses. -/
def btcW1 : WalletService.EncryptedBitcoinWallet :=
  { address := "btc1", encryptedPrivateKey := "e2", salt := "s2", iv := "i2"
    network := "mainnet" }

/-- Concrete Solana generator output for witnesses. -/
def solW1 : EncryptedWallet :=
  { address := "sol1", encryptedPrivateKey := "e3", salt := "s3", iv := "i3" }

/-- Concrete Tron generator output for witnesses. -/
def tronW1 : EncryptedWallet :=
  { address := "TTron1", encryptedPrivateKey := "e4", salt := "s4", iv := "i4" }

/-- The store produced by `generateAndStoreWallets` on the empty store with
`evmChainId = 137`. -/
def dbFourWallets : MockDatabase :=
  { wallets :=
      [MockDatabase.mkWalletRecord 1 "alice"
        (WalletService.ethWalletData ethW1 (some 137)) 9,
       MockDatabase.mkWalletRecord 2 "alice"
        (WalletService.btcWalletData btcW1) 9,
       MockDatabase.mkWalletRecord 3 "alice"
        (WalletService.plainWalletData .solana solW1) 9,
       MockDatabase.mkWalletRecord 4 "alice"
        (WalletService.plainWalletData .tron tronW1) 9]
    transactions := []
    walletIdCounter := 5
    transactionIdCounter := 1
    connected := true }

theorem hexVal_hexChar {n : Nat} (h : n < 16) : hexVal (hexChar n) = some n := by
  interval_cases n <;> decide

theorem hexToBytes_bytesToHex {l : List Nat} (h : ∀ b ∈ l, b < 256) :
    hexToBytes (bytesToHex l) = some l := by
  induction l with
  | nil => rfl
  | cons b bs ih =>
    have hb : b < 256 := h b (List.mem_cons_self b bs)
    have h1 : b / 16 < 16 := Nat.div_lt_of_lt_mul hb
    have h2 : b % 16 < 16 := Nat.mod_lt _ (by norm_num)
    simp only [bytesToHex, hexToBytes, hexVal_hexChar h1, hexVal_hexChar h2,
      ih (fun x hx => h x (List.mem_cons_of_mem _ hx)), Option.bind_eq_bind,
      Option.some_bind]
    simp [Nat.div_add_mod]

theorem chunks16Fuel_congr (f1 : Nat) : ∀ (f2 : Nat) (l : List Nat),
    l.length ≤ f1 → l.length ≤ f2 → chunks16Fuel f1 l = chunks16Fuel f2 l := by
  induction f1 with
  | zero =>
    intro f2 l h1 _
    have : l = [] := List.eq_nil_of_length_eq_zero (by omega)
    subst this
    cases f2 <;> rfl
  | succ n ih =>
    intro f2 l h1 h2
    cases l with
    | nil => cases f2 <;> rfl
    | cons b bs =>
      cases f2 with
      | zero => simp at h2
      | succ m =>
        simp only [chunks16Fuel, List.cons.injEq, true_and]
        apply ih
        · simp only [List.length_drop, List.length_cons]
          simp only [List.length_cons] at h1
          omega
        · simp only [List.length_drop, List.length_cons]
          simp only [List.length_cons] at h2
          omega

theorem zipWith_xor_cancel {a b : List Nat} (h : a.length = b.length) :
    List.zipWith Nat.xor a (List.zipWith Nat.xor a b) = b := by
  induction a generalizing b with
  | nil => simpa using (List.length_eq_zero.1 h.symm).symm
  | cons x xs ih =>
    cases b with
    | nil => simp at h
    | cons y ys =>
      simp only [List.zipWith_cons_cons, List.cons.injEq]
      refine ⟨?_, ih (by simpa using h)⟩
      show x ^^^ (x ^^^ y) = y
      rw [← Nat.xor_assoc, Nat.xor_self, Nat.zero_xor]

theorem xor_byte {x y : Nat} (hx : x < 256) (hy : y < 256) : x ^^^ y < 256 :=
  Nat.xor_lt_two_pow (n := 8) hx hy

theorem zipWith_xor_bytes {a b : List Nat} (ha : ∀ x ∈ a, x < 256)
    (hb : ∀ x ∈ b, x < 256) : ∀ x ∈ List.zipWith Nat.xor a b, x < 256 := by
  induction a generalizing b with
  | nil => simp
  | cons p ps ih =>
    cases b with
    | nil => simp
    | cons q qs =>
      intro x hx
      simp only [List.zipWith_cons_cons, List.mem_cons] at hx
      rcases hx with rfl | hx
      · exact xor_byte (ha p (by simp)) (hb q (by simp))
      · exact ih (fun y hy => ha y (by simp [hy]))
          (fun y hy => hb y (by simp [hy])) x hx

theorem cbcDec_cbcEnc (blockEnc blockDec : List Nat → List Nat)
    (hinv : ∀ b, ByteBlock b → blockDec (blockEnc b) = b)
    (hspec : ∀ b, ByteBlock b → ByteBlock (blockEnc b))
    {iv : List Nat} (hiv : ByteBlock iv)
    {bs : List (List Nat)} (hbs : ∀ b ∈ bs, ByteBlock b) :
    cbcDec blockDec iv (cbcEnc blockEnc iv bs) = bs := by
  induction bs generalizing iv with
  | nil => rfl
  | cons b rest ih =>
    have hb : ByteBlock b := hbs b (List.mem_cons_self b rest)
    have hx : ByteBlock (List.zipWith Nat.xor iv b) := by
      refine ⟨by simp [List.length_zipWith, hb.1, hiv.1], ?_⟩
      exact zipWith_xor_bytes hiv.2 hb.2
    have hc : ByteBlock (blockEnc (List.zipWith Nat.xor iv b)) := hspec _ hx
    simp only [cbcEnc, cbcDec, hinv _ hx, List.cons.injEq]
    refine ⟨?_, ih hc (fun x hxm => hbs x (List.mem_cons_of_mem _ hxm))⟩
    exact zipWith_xor_cancel (by rw [hiv.1, hb.1])

theorem pkcs7unpad_pkcs7pad (l : List Nat) : pkcs7unpad (pkcs7pad l) = some l := by
  have hp : 1 ≤ padLen l.length ∧ padLen l.length ≤ 16 := by unfold padLen; omega
  obtain ⟨k, hk⟩ : ∃ k, padLen l.length = k + 1 := ⟨padLen l.length - 1, by omega⟩
  unfold pkcs7pad
  set p := padLen l.length with hpdef
  have hrep : List.replicate p p = List.replicate k p ++ [p] := by
    rw [hk, List.replicate_succ']
  have hlast : (l ++ List.replicate p p).getLast? = some p := by
    rw [hrep, ← List.append_assoc, List.getLast?_concat]
  have hlen : (l ++ List.replicate p p).length = l.length + p := by simp
  have hsub : (l ++ List.replicate p p).length - p = l.length := by omega
  unfold pkcs7unpad
  simp only [hlast, hsub]
  rw [if_neg (by omega), if_neg (by omega), List.drop_left' rfl, if_pos rfl,
    List.take_left' rfl]

theorem chunks16_nil : chunks16 [] = [] := rfl

theorem chunks16_cons (b : Nat) (bs : List Nat) :
    chunks16 (b :: bs) = ((b :: bs).take 16) :: chunks16 ((b :: bs).drop 16) := by
  show chunks16Fuel (b :: bs).length (b :: bs) = _
  simp only [List.length_cons, chunks16Fuel, List.cons.injEq, true_and]
  apply chunks16Fuel_congr
  · simp only [List.length_drop, List.length_cons]; omega
  · exact le_rfl

theorem flatten_chunks16 : ∀ l : List Nat, (chunks16 l).flatten = l
  | [] => by rw [chunks16_nil]; rfl
  | b :: bs => by
    rw [chunks16_cons, List.flatten_cons, flatten_chunks16 ((b :: bs).drop 16),
      List.take_append_drop]
termination_by l => l.length
decreasing_by simp only [List.length_drop, List.length_cons]; omega

theorem chunks16_flatten {bs : List (List Nat)}
    (h : ∀ b ∈ bs, b.length = 16) : chunks16 bs.flatten = bs := by
  induction bs with
  | nil => exact chunks16_nil
  | cons b rest ih =>
    have hb : b.length = 16 := h b (List.mem_cons_self b rest)
    have hne : b ++ rest.flatten ≠ [] := by
      intro hcontra
      have := congrArg List.length hcontra
      simp [hb] at this
    rw [List.flatten_cons]
    obtain ⟨x, xs, hx⟩ : ∃ x xs, b ++ rest.flatten = x :: xs := by
      cases hbs : b ++ rest.flatten with
      | nil => exact absurd hbs hne
      | cons x xs => exact ⟨x, xs, rfl⟩
    rw [hx, chunks16_cons, ← hx]
    have htake : (b ++ rest.flatten).take 16 = b := by
      rw [← hb]; exact List.take_left b rest.flatten
    have hdrop : (b ++ rest.flatten).drop 16 = rest.flatten := by
      rw [← hb]; exact List.drop_left b rest.flatten
    rw [htake, hdrop, ih (fun x hxm => h x (List.mem_cons_of_mem _ hxm))]

theorem cbcEnc_blocks (E : List Nat → List Nat)
    (hspec : ∀ b, ByteBlock b → ByteBlock (E b)) :
    ∀ (iv : List Nat), ByteBlock iv →
    ∀ (bs : List (List Nat)), (∀ b ∈ bs, ByteBlock b) →
    ∀ c ∈ cbcEnc E iv bs, ByteBlock c := by
  intro iv hiv bs
  induction bs generalizing iv with
  | nil => intro _ c hc; simp [cbcEnc] at hc
  | cons b rest ih =>
    intro hbs c hc
    have hb : ByteBlock b := hbs b (List.mem_cons_self b rest)
    have hc0 : ByteBlock (E (List.zipWith Nat.xor iv b)) := by
      refine hspec _ ⟨by simp [List.length_zipWith, hiv.1, hb.1], ?_⟩
      exact zipWith_xor_bytes hiv.2 hb.2
    simp only [cbcEnc, List.mem_cons] at hc
    rcases hc with rfl | hc
    · exact hc0
    · exact ih _ hc0 (fun x hx => hbs x (List.mem_cons_of_mem _ hx)) c hc

theorem flatten_length_mod16 {bs : List (List Nat)}
    (h : ∀ b ∈ bs, b.length = 16) : bs.flatten.length % 16 = 0 := by
  induction bs with
  | nil => rfl
  | cons b rest ih =>
    have hb : b.length = 16 := h b (List.mem_cons_self b rest)
    have hr := ih (fun x hx => h x (List.mem_cons_of_mem _ hx))
    simp only [List.flatten_cons, List.length_append, hb]
    omega

/-- Elements of a 16-chunk are elements of the chunked list. -/
theorem mem_of_mem_chunks16 : ∀ (l : List Nat), ∀ b ∈ chunks16 l, ∀ x ∈ b, x ∈ l
  | [] => by rw [chunks16_nil]; simp
  | a :: as => by
    intro b hb x hx
    rw [chunks16_cons] at hb
    rcases List.mem_cons.1 hb with rfl | hb'
    · exact List.mem_of_mem_take hx
    · exact List.mem_of_mem_drop
        (mem_of_mem_chunks16 ((a :: as).drop 16) b hb' x hx)
termination_by l => l.length
decreasing_by simp only [List.length_drop, List.length_cons]; omega

/-- `String.mk`/`String.data` round trip. -/
theorem data_mk (l : List Char) : (String.mk l).data = l := rfl

/-- All 16-chunks of a list whose length is a multiple of 16 have length
exactly 16. -/
theorem chunks16_length : ∀ (l : List Nat), l.length % 16 = 0 →
    ∀ b ∈ chunks16 l, b.length = 16
  | [] => by intro _ b hb; rw [chunks16_nil] at hb; simp at hb
  | x :: xs => by
    intro hmod b hb
    rw [chunks16_cons] at hb
    simp only [List.length_cons] at hmod
    rcases List.mem_cons.1 hb with rfl | hb'
    · simp only [List.length_take, List.length_cons]
      omega
    · refine chunks16_length ((x :: xs).drop 16) ?_ b hb'
      simp only [List.length_drop, List.length_cons]
      omega
termination_by l => l.length
decreasing_by simp only [List.length_drop, List.length_cons]; omega

/-- **C1** — For every plaintext secret and every password, decrypting the
result of `generateEncryptedWallet` with the same password returns exactly
the original plaintext, for any salt and any 16-byte initialization vector
drawn during encryption: the PBKDF2 call sites agree (same salt, iteration
count, key length, hash), and AES-256-CBC with PKCS#7 padding and hex
encoding round-trips.  The AES block permutation enters abstractly through
`aesEnc`/`aesDec` with its defining properties: `aesDec k` inverts
`aesEnc k` on 16-byte blocks, and `aesEnc k` maps 16-byte blocks to
16-byte blocks. -/
theorem decrypt_encrypt_roundtrip (pbkdf2 : String → String → List Nat)
    (aesEnc aesDec : List Nat → List Nat → List Nat)
    (hinv : ∀ k b, ByteBlock b → aesDec k (aesEnc k b) = b)
    (hspec : ∀ k b, ByteBlock b → ByteBlock (aesEnc k b))
    (address password salt : String) (privateKey iv : List Nat)
    (hpk : ∀ x ∈ privateKey, x < 256) (hiv : ByteBlock iv) :
    decryptWallet pbkdf2 aesDec
      (generateEncryptedWallet pbkdf2 aesEnc address privateKey salt iv password)
      password = some privateKey := by
  set key := pbkdf2 password salt with hkey
  have hpadmod : (pkcs7pad privateKey).length % 16 = 0 := by
    simp only [pkcs7pad, List.length_append, List.length_replicate, padLen]
    omega
  have hpadbytes : ∀ x ∈ pkcs7pad privateKey, x < 256 := by
    intro x hx
    rcases List.mem_append.1 hx with hx | hx
    · exact hpk x hx
    · have := List.eq_of_mem_replicate hx
      subst this
      unfold padLen
      omega
  have hblocks : ∀ b ∈ chunks16 (pkcs7pad privateKey), ByteBlock b := by
    intro b hb
    exact ⟨chunks16_length _ hpadmod b hb,
      fun x hx => hpadbytes x (mem_of_mem_chunks16 _ b hb x hx)⟩
  have hctblocks : ∀ c ∈ cbcEnc (aesEnc key) iv (chunks16 (pkcs7pad privateKey)),
      ByteBlock c :=
    cbcEnc_blocks (aesEnc key) (hspec key) iv hiv _ hblocks
  set ctBlocks := cbcEnc (aesEnc key) iv (chunks16 (pkcs7pad privateKey))
    with hct
  have hctmod : ctBlocks.flatten.length % 16 = 0 :=
    flatten_length_mod16 (fun c hc => (hctblocks c hc).1)
  have hctbytes : ∀ x ∈ ctBlocks.flatten, x < 256 := by
    intro x hx
    obtain ⟨c, hc, hxc⟩ := List.mem_flatten.1 hx
    exact (hctblocks c hc).2 x hxc
  unfold decryptWallet generateEncryptedWallet
  simp only [data_mk, hexToBytes_bytesToHex hiv.2, hexToBytes_bytesToHex hctbytes]
  rw [if_pos hctmod, chunks16_flatten (fun c hc => (hctblocks c hc).1),
    cbcDec_cbcEnc (aesEnc key) (aesDec key) (hinv key) (hspec key) hiv hblocks,
    flatten_chunks16, pkcs7unpad_pkcs7pad]

theorem fitKey_length (n : Nat) (k : List Nat) : (fitKey n k).length = n := by
  simp only [fitKey, List.length_take, List.length_append, List.length_map,
    List.length_replicate]
  omega

theorem fitKey_bytes (n : Nat) (k : List Nat) : ∀ x ∈ fitKey n k, x < 256 := by
  intro x hx
  have hx' := List.mem_of_mem_take hx
  rcases List.mem_append.1 hx' with h | h
  · obtain ⟨y, _, rfl⟩ := List.mem_map.1 h
    exact Nat.mod_lt _ (by norm_num)
  · have := List.eq_of_mem_replicate h
    omega

theorem xorCipher_length (k b : List Nat) : (xorCipher k b).length = b.length := by
  simp [xorCipher, List.length_zipWith, fitKey_length]

theorem xorCipher_involutive (k b : List Nat) :
    xorCipher k (xorCipher k b) = b := by
  have h1 : (xorCipher k b).length = b.length := xorCipher_length k b
  rw [xorCipher, h1, xorCipher]
  exact zipWith_xor_cancel (fitKey_length b.length k)

theorem xorCipher_blocks (k b : List Nat) (hb : ByteBlock b) :
    ByteBlock (xorCipher k b) :=
  ⟨(xorCipher_length k b).trans hb.1,
    zipWith_xor_bytes (fitKey_bytes b.length k) hb.2⟩

/-- Witness for `decrypt_encrypt_roundtrip` at a concrete cipher, password,
salt, iv and plaintext. -/
theorem decrypt_encrypt_roundtrip_witness :
    decryptWallet demoKdf xorCipher
      (generateEncryptedWallet demoKdf xorCipher "0xabc" [222, 173, 190, 239]
        "73616c74" (List.replicate 16 7) "hunter2") "hunter2" =
      some [222, 173, 190, 239] :=
  decrypt_encrypt_roundtrip demoKdf xorCipher xorCipher
    (fun k b _ => xorCipher_involutive k b)
    (fun k b hb => xorCipher_blocks k b hb)
    "0xabc" "hunter2" "73616c74" [222, 173, 190, 239] (List.replicate 16 7)
    (by decide) ⟨by decide, by decide⟩

/-! ### Wrong-password decryption (C9)

The scheme is unauthenticated CBC: decrypting with a different password
deciphers under a different derived key and then only runs the PKCS#7
padding check, so failure is *not* guaranteed — when the deciphered bytes
happen to end in a valid pad, corrupted plaintext is returned without
error. -/

/-- **C9 (counterexample)** — The claim "decrypting `encrypt(plaintext, p1)`
with `p2 ≠ p1` always fails, never returning silently corrupted plaintext"
is false at a concrete input: with the interface-satisfying cipher
`xorCipher`/`demoKdf`, passwords `"A" ≠ "B"` and a 15-byte plaintext, the
deciphered garbage ends in the valid pad byte `01`, so decryption succeeds
and returns a corrupted secret. -/
theorem decryptWallet_wrong_password_counterexample :
    ("A" : String) ≠ "B" ∧
    decryptWallet demoKdf xorCipher
      (generateEncryptedWallet demoKdf xorCipher "0xaddr"
        (List.replicate 15 0) "" (List.replicate 16 0) "A") "B" =
      some (3 :: List.replicate 14 0) ∧
    (3 :: List.replicate 14 0) ≠ List.replicate 15 0 := by decide

/-- **C9 (amended)** — Decrypting an encrypted wallet with a (possibly
different) password `p2` deciphers the ciphertext under the `p2`-derived key
and returns exactly the PKCS#7-unpad of the result: it fails (the decipher
throws, `none`) precisely when the padding check rejects, and otherwise
returns whatever bytes the pad check admits — there is no authentication
forcing failure for every wrong password. -/
theorem decryptWallet_wrong_password_behavior
    (pbkdf2 : String → String → List Nat)
    (aesEnc aesDec : List Nat → List Nat → List Nat)
    (hspec : ∀ k b, ByteBlock b → ByteBlock (aesEnc k b))
    (address p1 p2 salt : String) (privateKey iv : List Nat)
    (hpk : ∀ x ∈ privateKey, x < 256) (hiv : ByteBlock iv) :
    decryptWallet pbkdf2 aesDec
      (generateEncryptedWallet pbkdf2 aesEnc address privateKey salt iv p1)
      p2 =
    pkcs7unpad ((cbcDec (aesDec (pbkdf2 p2 salt)) iv
      (chunks16 ((cbcEnc (aesEnc (pbkdf2 p1 salt)) iv
        (chunks16 (pkcs7pad privateKey))).flatten))).flatten) := by
  have hpadmod : (pkcs7pad privateKey).length % 16 = 0 := by
    simp only [pkcs7pad, List.length_append, List.length_replicate, padLen]
    omega
  have hpadbytes : ∀ x ∈ pkcs7pad privateKey, x < 256 := by
    intro x hx
    rcases List.mem_append.1 hx with hx | hx
    · exact hpk x hx
    · have := List.eq_of_mem_replicate hx
      subst this
      unfold padLen
      omega
  have hblocks : ∀ b ∈ chunks16 (pkcs7pad privateKey), ByteBlock b := by
    intro b hb
    exact ⟨chunks16_length _ hpadmod b hb,
      fun x hx => hpadbytes x (mem_of_mem_chunks16 _ b hb x hx)⟩
  have hctblocks : ∀ c ∈ cbcEnc (aesEnc (pbkdf2 p1 salt)) iv
      (chunks16 (pkcs7pad privateKey)), ByteBlock c :=
    cbcEnc_blocks (aesEnc (pbkdf2 p1 salt)) (hspec (pbkdf2 p1 salt)) iv hiv
      _ hblocks
  have hctmod : (cbcEnc (aesEnc (pbkdf2 p1 salt)) iv
      (chunks16 (pkcs7pad privateKey))).flatten.length % 16 = 0 :=
    flatten_length_mod16 (fun c hc => (hctblocks c hc).1)
  have hctbytes : ∀ x ∈ (cbcEnc (aesEnc (pbkdf2 p1 salt)) iv
      (chunks16 (pkcs7pad privateKey))).flatten, x < 256 := by
    intro x hx
    obtain ⟨c, hc, hxc⟩ := List.mem_flatten.1 hx
    exact (hctblocks c hc).2 x hxc
  unfold decryptWallet generateEncryptedWallet
  simp only [data_mk, hexToBytes_bytesToHex hiv.2, hexToBytes_bytesToHex hctbytes]
  rw [if_pos hctmod]

/-- Witness for `decryptWallet_wrong_password_behavior` at the concrete
cipher and passwords of the counterexample. -/
theorem decryptWallet_wrong_password_behavior_witness :
    decryptWallet demoKdf xorCipher
      (generateEncryptedWallet demoKdf xorCipher "0xaddr"
        (List.replicate 15 0) "" (List.replicate 16 0) "A") "B" =
    pkcs7unpad ((cbcDec (xorCipher (demoKdf "B" "")) (List.replicate 16 0)
      (chunks16 ((cbcEnc (xorCipher (demoKdf "A" "")) (List.replicate 16 0)
        (chunks16 (pkcs7pad (List.replicate 15 0)))).flatten))).flatten) :=
  decryptWallet_wrong_password_behavior demoKdf xorCipher xorCipher
    (fun k b hb => xorCipher_blocks k b hb) "0xaddr" "A" "B" ""
    (List.replicate 15 0) (List.replicate 16 0) (by decide)
    ⟨by decide, by decide⟩

/-- **C8** — The Tron address validator accepts every 34-character string of
Base58-alphabet characters whose first character is `'T'`, and rejects every
string of length 5. -/
theorem validateTronAddress_spec (s : String) :
    (s.length = 34 → s.data.head? = some 'T' → s.data.all isBase58Char = true →
      validateTronAddress s = true) ∧
    (s.length = 5 → validateTronAddress s = false) := by
  have hlen : s.length = s.data.length := rfl
  constructor
  · intro h34 hT hall
    have hne : s.data ≠ [] := by
      intro hcontra
      rw [hlen, hcontra] at h34
      simp at h34
    unfold validateTronAddress
    rw [if_neg]
    · simp [hall, List.isEmpty_iff, hne]
    · simp [List.isEmpty_iff, hne, hT, h34]
  · intro h5
    unfold validateTronAddress
    rw [if_pos]
    simp [h5]

/-- Witness for `validateTronAddress_spec` at the spec's two example
inputs. -/
theorem validateTronAddress_spec_witness :
    validateTronAddress "TRjE1H8dxypKM1NZRdysbs9wo7huR4bdNz" = true ∧
    validateTronAddress "AB123" = false :=
  ⟨(validateTronAddress_spec "TRjE1H8dxypKM1NZRdysbs9wo7huR4bdNz").1
      (by decide) (by decide) (by decide),
    (validateTronAddress_spec "AB123").2 (by decide)⟩

/-! ## C3 — wallet deletion and transaction cascade -/

/-- **C3 (code bug)** — The claim "deleteWallet removes every
TransactionRecord of that wallet, in each store implementation" holds for
the relational implementation (which deletes the transaction rows first,
matching the documented `ON DELETE CASCADE` schema) but fails for the
in-memory one: `MockDatabase.deleteWallet` filters only `wallets`, so the
owned transaction survives and `getTransactionsByWallet` still returns
it. -/
theorem deleteWallet_cascade_bug :
    MockDatabase.deleteWallet mockDb1 1 = .ok (true, mockDb1Deleted) ∧
    MockDatabase.getTransactionsByWallet mockDb1Deleted 1 = .ok [tx1] ∧
    ([tx1] : List TransactionRecord) ≠ [] ∧
    MySQLDatabase.deleteWallet mysqlDb1 1 = .ok (true, mysqlDb1Deleted) ∧
    MySQLDatabase.getTransactionsByWallet mysqlDb1Deleted 1 = .ok [] := by
  decide

/-! ## C5 — fine-to-coarse status projection -/

/-- Membership in a `patchFirst` result: unchanged record or the patched
found record. -/
theorem mem_patchFirst {l : List TransactionRecord} {id : Nat} {p : TxPatch} :
    ∀ t' ∈ MockDatabase.patchFirst l id p,
      t' ∈ l ∨ ∃ t ∈ l, t' = applyTxPatch t p := by
  induction l with
  | nil => simp [MockDatabase.patchFirst]
  | cons a as ih =>
    intro t' ht'
    unfold MockDatabase.patchFirst at ht'
    split at ht'
    · rcases List.mem_cons.1 ht' with rfl | h
      · exact Or.inr ⟨a, List.mem_cons_self a as, rfl⟩
      · exact Or.inl (List.mem_cons_of_mem _ h)
    · rcases List.mem_cons.1 ht' with rfl | h
      · exact Or.inl (List.mem_cons_self _ _)
      · rcases ih t' h with h' | ⟨t, ht, rfl⟩
        · exact Or.inl (List.mem_cons_of_mem _ h')
        · exact Or.inr ⟨t, List.mem_cons_of_mem _ ht, rfl⟩

/-- **C5** — `updatePendingSwaps` projects the gateway's fine status to the
persisted coarse status exactly as specified — `waiting`, `confirming`,
`exchanging`, `sending ↦ pending`; `finished ↦ completed`; `failed`,
`refunded ↦ failed` — and a reconciliation step writes no other value: every
record in the post-step store either kept its status or carries the
projection of a successful gateway response, which is never `pending`
(writes happen only on change). -/
theorem mapSwapStatus_projection :
    (SwapService.mapSwapStatus .waiting = .pending ∧
     SwapService.mapSwapStatus .confirming = .pending ∧
     SwapService.mapSwapStatus .exchanging = .pending ∧
     SwapService.mapSwapStatus .sending = .pending ∧
     SwapService.mapSwapStatus .finished = .completed ∧
     SwapService.mapSwapStatus FineStatus.failed = TxStatus.failed ∧
     SwapService.mapSwapStatus .refunded = TxStatus.failed) ∧
    ∀ (api : ChangeNowAPI) (acc : MockDatabase × Nat)
      (swap t' : TransactionRecord),
      t' ∈ (SwapService.updatePendingSwapsStep api acc swap).1.transactions →
      t' ∈ acc.1.transactions ∨
      ∃ st, api.getTransactionStatus swap.hash = .ok st ∧
        t'.status = SwapService.mapSwapStatus st.status ∧
        SwapService.mapSwapStatus st.status ≠ TxStatus.pending := by
  refine ⟨by decide, ?_⟩
  intro api acc swap t' ht'
  unfold SwapService.updatePendingSwapsStep at ht'
  cases hst : api.getTransactionStatus swap.hash with
  | error e =>
    rw [hst] at ht'
    exact Or.inl ht'
  | ok st =>
    rw [hst] at ht'
    dsimp only at ht'
    by_cases hmap : SwapService.mapSwapStatus st.status = TxStatus.pending
    · rw [if_neg (by simpa using hmap)] at ht'
      exact Or.inl ht'
    · rw [if_pos (by simpa using hmap)] at ht'
      cases hupd : MockDatabase.updateTransaction acc.1 swap.id
        { status := some (SwapService.mapSwapStatus st.status)
          hash := none, fee := none } with
      | error e =>
        rw [hupd] at ht'
        exact Or.inl ht'
      | ok p =>
        obtain ⟨updated, s'⟩ := p
        rw [hupd] at ht'
        unfold MockDatabase.updateTransaction at hupd
        split at hupd
        · exact absurd hupd (by simp)
        · split at hupd
          · injection hupd with h1
            injection h1 with h2 h3
            subst h2
            subst h3
            rcases mem_patchFirst t' ht' with h | ⟨t, _, rfl⟩
            · exact Or.inl h
            · exact Or.inr ⟨st, rfl, by simp [applyTxPatch], hmap⟩
          · injection hupd with h1
            injection h1 with h2 h3
            subst h2
            subst h3
            exact Or.inl ht'

/-- Witness for `mapSwapStatus_projection`: the post-step store of a
concrete reconciliation contains the completed record, whose status is the
projection of the gateway's `finished`. -/
theorem mapSwapStatus_projection_witness :
    SwapService.mapSwapStatus .finished = .completed ∧
    (txCompletedCn1 ∈ dbPendingCn1.transactions ∨
      ∃ st, demoApi.getTransactionStatus txPendingCn1.hash = .ok st ∧
        txCompletedCn1.status = SwapService.mapSwapStatus st.status ∧
        SwapService.mapSwapStatus st.status ≠ TxStatus.pending) :=
  ⟨mapSwapStatus_projection.1.2.2.2.2.1,
    mapSwapStatus_projection.2 demoApi (dbPendingCn1, 0) txPendingCn1
      txCompletedCn1 (by decide)⟩

/-! ## C4 — createSwap with an unknown walletId -/

/-- **C4 (counterexample)** — The claim "createSwap on an unknown walletId
fails with the specific WalletNotFound error, propagated unchanged and not
converted into a generic stringified error" is false: the detected
not-found condition is re-thrown by `createSwap`'s catch-all as a new
generic error with the stringified message
`Failed to create swap: Wallet with ID 7 not found`, which differs from the
original `Wallet with ID 7 not found`. -/
theorem createSwap_unknown_wallet_counterexample :
    SwapService.createSwap demoApi emptyDb 7 "ETH" "BTC" "1.0" "addr"
      "refund" none none 0 =
      .error "Failed to create swap: Wallet with ID 7 not found" ∧
    ("Failed to create swap: Wallet with ID 7 not found" : String) ≠
      "Wallet with ID 7 not found" := by
  constructor
  · rfl
  · decide

/-- **C4 (amended)** — For every walletId not present in a connected store,
`createSwap` fails with an error whose message is the wallet-not-found
message wrapped by the catch-all: `Failed to create swap: Wallet with ID
{id} not found`.  The not-found condition is detected, but it is converted
into a generic stringified error rather than propagated unchanged. -/
theorem createSwap_unknown_wallet (api : ChangeNowAPI) (s : MockDatabase)
    (walletId : Nat)
    (fromCurrency toCurrency fromAmount toAddress refundAddress : String)
    (fromChainId toChainId : Option Nat) (now : Nat)
    (hconn : s.connected = true)
    (hmiss : s.wallets.find? (fun w => w.id == walletId) = none) :
    SwapService.createSwap api s walletId fromCurrency toCurrency fromAmount
      toAddress refundAddress fromChainId toChainId now =
      .error ("Failed to create swap: " ++
        ("Wallet with ID " ++ toString walletId ++ " not found")) := by
  have hmsg : ("Wallet with ID " ++ toString walletId ++ " not found") ≠ "" := by
    intro hcontra
    have h := congrArg String.length hcontra
    simp [String.length_append] at h
    exact absurd h.1.1 (by decide)
  unfold SwapService.createSwap MockDatabase.getWalletById
  rw [if_neg (by simp [hconn]), hmiss]
  dsimp only
  rw [orUnknown, if_neg hmsg]

/-- Witness for `createSwap_unknown_wallet` on the empty store. -/
theorem createSwap_unknown_wallet_witness :
    SwapService.createSwap demoApi emptyDb 7 "ETH" "BTC" "1.0" "addr"
      "refund" none none 0 =
      .error ("Failed to create swap: " ++
        ("Wallet with ID " ++ toString 7 ++ " not found")) :=
  createSwap_unknown_wallet demoApi emptyDb 7 "ETH" "BTC" "1.0" "addr"
    "refund" none none 0 (by decide) (by decide)

/-! ## C6 — per-record failure isolation in the reconciliation scan -/

/-- **C6** — A record whose gateway lookup fails is skipped by the
reconciliation scan without aborting it: the fold over the pending swap
records with the failing record present equals the fold without it (same
final store, same count of successful updates), and `updatePendingSwaps` on
a connected store never raises — it returns a count. -/
theorem updatePendingSwaps_isolates_failures
    (api : ChangeNowAPI) (s : MockDatabase) (count : Nat)
    (l1 l2 : List TransactionRecord) (bad : TransactionRecord) (e : String)
    (herr : api.getTransactionStatus bad.hash = .error e) :
    (l1 ++ bad :: l2).foldl (SwapService.updatePendingSwapsStep api)
        (s, count) =
      (l1 ++ l2).foldl (SwapService.updatePendingSwapsStep api) (s, count) ∧
    (s.connected = true →
      ∃ n s', SwapService.updatePendingSwaps api s = .ok (n, s')) := by
  constructor
  · have hstep : ∀ acc, SwapService.updatePendingSwapsStep api acc bad = acc := by
      intro acc
      unfold SwapService.updatePendingSwapsStep
      rw [herr]
    rw [List.foldl_append, List.foldl_append, List.foldl_cons, hstep]
  · intro hconn
    unfold SwapService.updatePendingSwaps MockDatabase.getTransactionsByStatus
    rw [if_neg (by simp [hconn])]
    exact ⟨_, _, rfl⟩

/-- Witness for `updatePendingSwaps_isolates_failures`: with the failing
record between two scans of the pending list, the fold result is unchanged,
and the reconciliation pass on the connected store returns a count. -/
theorem updatePendingSwaps_isolates_failures_witness :
    ([txPendingCn1] ++ badTx :: [txPendingCn1]).foldl
        (SwapService.updatePendingSwapsStep demoApi) (dbPendingCn1, 0) =
      ([txPendingCn1] ++ [txPendingCn1]).foldl
        (SwapService.updatePendingSwapsStep demoApi) (dbPendingCn1, 0) ∧
    (dbPendingCn1.connected = true →
      ∃ n s', SwapService.updatePendingSwaps demoApi dbPendingCn1 =
        .ok (n, s')) :=
  updatePendingSwaps_isolates_failures demoApi dbPendingCn1 0
    [txPendingCn1] [txPendingCn1] badTx "HTTP 500" (by decide)

/-! ## C2 — createSwap / reconcilePending idempotence -/

/-- A reconciliation pass over a store holding exactly one pending swap
record whose gateway status is `finished` completes the record and counts
one successful update. -/
theorem reconcile_single_finished (api : ChangeNowAPI) (s : MockDatabase)
    (t : TransactionRecord) (fs : SwapStatusInfo)
    (hconn : s.connected = true) (htxs : s.transactions = [t])
    (hstat : t.status = .pending) (htype : t.transactionType = .swap)
    (hapi : api.getTransactionStatus t.hash = .ok fs)
    (hfs : fs.status = .finished) :
    SwapService.updatePendingSwaps api s =
      .ok (1, { s with transactions := [{ t with status := .completed }] }) := by
  have hstep : SwapService.updatePendingSwapsStep api (s, 0) t =
      ({ s with transactions := [{ t with status := .completed }] }, 1) := by
    unfold SwapService.updatePendingSwapsStep
    rw [hapi]
    dsimp only
    rw [hfs]
    rw [if_pos (by decide)]
    unfold MockDatabase.updateTransaction
    rw [if_neg (by simp [hconn]), if_pos (by rw [htxs]; simp)]
    dsimp only
    rw [htxs]
    simp only [MockDatabase.patchFirst, beq_self_eq_true, if_true,
      applyTxPatch, Option.getD]
    rfl
  unfold SwapService.updatePendingSwaps MockDatabase.getTransactionsByStatus
  rw [if_neg (by simp [hconn]), htxs]
  dsimp only
  rw [show ([t].filter fun x => x.status == TxStatus.pending) = [t] by
      simp [List.filter, hstat],
    show ([t].filter fun x => x.transactionType == TxType.swap) = [t] by
      simp [List.filter, htype],
    List.foldl_cons, hstep]
  rfl

/-- A reconciliation pass over a store with no pending transactions
performs no write and reports zero updates. -/
theorem reconcile_no_pending (api : ChangeNowAPI) (s : MockDatabase)
    (hconn : s.connected = true)
    (hfilter : s.transactions.filter (fun t => t.status == TxStatus.pending)
      = []) :
    SwapService.updatePendingSwaps api s = .ok (0, s) := by
  unfold SwapService.updatePendingSwaps MockDatabase.getTransactionsByStatus
  rw [if_neg (by simp [hconn]), hfilter]
  rfl

/-- **C2** — Starting from a connected store with no transactions, a
successful `createSwap` leaves one pending swap record; when the gateway
reports `finished` for that record's external hash, one `updatePendingSwaps`
pass updates its coarse status to `completed`, counted as exactly one
successful update, and a second pass performs no further write: it returns
count 0 and the very same store. -/
theorem createSwap_reconcile_idempotent
    (api : ChangeNowAPI) (s0 : MockDatabase) (w : WalletRecord)
    (fromCurrency toCurrency fromAmount toAddress refundAddress : String)
    (fromChainId toChainId : Option Nat) (now : Nat)
    (swapTx : SwapTransaction) (rate : SwapRate) (st : SwapStatusInfo)
    (hconn : s0.connected = true)
    (htx0 : s0.transactions = [])
    (hfind : s0.wallets.find? (fun x => x.id == w.id) = some w)
    (hapi1 : api.createTransaction fromCurrency toCurrency fromAmount
      toAddress refundAddress fromChainId toChainId = .ok swapTx)
    (hapi2 : api.getExchangeRate fromCurrency toCurrency fromAmount
      fromChainId toChainId = .ok rate)
    (hapi3 : api.getTransactionStatus swapTx.id = .ok st)
    (hfin : st.status = .finished) :
    ∃ tx s1 s2,
      SwapService.createSwap api s0 w.id fromCurrency toCurrency fromAmount
        toAddress refundAddress fromChainId toChainId now = .ok (tx, s1) ∧
      tx.status = .pending ∧
      tx.transactionType = .swap ∧
      tx.hash = swapTx.id ∧
      s1.transactions = [tx] ∧
      SwapService.updatePendingSwaps api s1 = .ok (1, s2) ∧
      s2.transactions = [{ tx with status := .completed }] ∧
      SwapService.updatePendingSwaps api s2 = .ok (0, s2) := by
  refine
    ⟨mkSwapRecord s0 w fromCurrency fromAmount toAddress rate swapTx
        fromChainId toChainId now,
      { s0 with
        transactions := [mkSwapRecord s0 w fromCurrency fromAmount toAddress
          rate swapTx fromChainId toChainId now]
        transactionIdCounter := s0.transactionIdCounter + 1 },
      { s0 with
        transactions := [{ mkSwapRecord s0 w fromCurrency fromAmount toAddress
          rate swapTx fromChainId toChainId now with status := .completed }]
        transactionIdCounter := s0.transactionIdCounter + 1 },
      ?_, rfl, rfl, rfl, rfl, ?_, rfl, ?_⟩
  · unfold SwapService.createSwap MockDatabase.getWalletById
      MockDatabase.recordTransaction
    rw [if_neg (by simp [hconn]), hfind]
    dsimp only
    rw [hapi1]
    dsimp only
    rw [hapi2]
    dsimp only
    rw [if_neg (by simp [hconn]), htx0]
    rfl
  · exact reconcile_single_finished api _ _ st (by simpa using hconn) rfl
      rfl rfl (by simpa using hapi3) hfin
  · exact reconcile_no_pending api _ (by simpa using hconn) rfl

/-- Witness for `createSwap_reconcile_idempotent` on a concrete store,
wallet and gateway. -/
theorem createSwap_reconcile_idempotent_witness :
    ∃ tx s1 s2,
      SwapService.createSwap demoApi dbWalletOnly wallet1.id "ETH" "BTC"
        "1.0" "btc-addr" "0xAbC123" none none 5 = .ok (tx, s1) ∧
      tx.status = .pending ∧
      tx.transactionType = .swap ∧
      tx.hash = SwapTransaction.id ⟨"cn-1"⟩ ∧
      s1.transactions = [tx] ∧
      SwapService.updatePendingSwaps demoApi s1 = .ok (1, s2) ∧
      s2.transactions = [{ tx with status := .completed }] ∧
      SwapService.updatePendingSwaps demoApi s2 = .ok (0, s2) :=
  createSwap_reconcile_idempotent demoApi dbWalletOnly wallet1 "ETH" "BTC"
    "1.0" "btc-addr" "0xAbC123" none none 5 ⟨"cn-1"⟩
    ⟨"1.0", "0.05", "0.01", "0.0005"⟩ ⟨.finished, none, none⟩
    (by decide) rfl (by decide) (by decide) (by decide) (by decide) rfl

/-! ## C7 — evmChainId default and chain-filtered queries -/

/-- **C7** — `generateAndStoreWallets` stores an Ethereum record whose
`chainId` is the requested chain id, defaulting to 1 when absent
(`chainId || ETHEREUM_MAINNET`): with no explicit chain id the stored
value is 1, with 137 it is exactly 137; and for every owner the
chain-filtered query returns that record exactly for the chain id it was
stored with (so the 137-wallet is in the 137 query and not in the 1
query). -/
theorem generateAndStoreWallets_chainId (s0 : MockDatabase) (userId : String)
    (cid : Option Nat) (ethW : EncryptedWallet)
    (btcW : WalletService.EncryptedBitcoinWallet)
    (solW tronW : EncryptedWallet) (now : Nat) (s1 : MockDatabase)
    (hconn : s0.connected = true)
    (hgen : WalletService.generateAndStoreWallets s0 userId cid ethW btcW
      solW tronW now = .ok s1) :
    ∃ r ∈ s1.wallets,
      r.id = s0.walletIdCounter ∧
      r.walletType = .ethereum ∧
      r.address = ethW.address ∧
      r.chainId = some (WalletService.jsOrChainId cid 1) ∧
      ∀ c l, MockDatabase.getWalletsByChainId s1 userId c = .ok l →
        (r ∈ l ↔ WalletService.jsOrChainId cid 1 = c) := by
  unfold WalletService.generateAndStoreWallets MockDatabase.createWallet at hgen
  rw [if_neg (by simp [hconn])] at hgen
  dsimp only at hgen
  rw [if_neg (by simp [hconn])] at hgen
  dsimp only at hgen
  rw [if_neg (by simp [hconn])] at hgen
  dsimp only at hgen
  rw [if_neg (by simp [hconn])] at hgen
  dsimp only at hgen
  injection hgen with hgen
  subst hgen
  refine ⟨MockDatabase.mkWalletRecord s0.walletIdCounter userId
    (WalletService.ethWalletData ethW cid) now, ?_, rfl, rfl, rfl, rfl, ?_⟩
  · simp [List.mem_append, MockDatabase.mkWalletRecord]
  · intro c l hq
    unfold MockDatabase.getWalletsByChainId at hq
    rw [if_neg (by simp [hconn])] at hq
    injection hq with hq
    subst hq
    constructor
    · intro hmem
      have := (List.mem_filter.1 hmem).2
      simp only [MockDatabase.mkWalletRecord, WalletService.ethWalletData,
        Bool.and_eq_true, beq_iff_eq] at this
      exact Option.some.inj this.2
    · intro hc
      refine List.mem_filter.2 ⟨by simp [List.mem_append,
        MockDatabase.mkWalletRecord], ?_⟩
      simp only [MockDatabase.mkWalletRecord, WalletService.ethWalletData,
        Bool.and_eq_true, beq_iff_eq]
      exact ⟨trivial, by rw [hc]⟩

/-- Witness for `generateAndStoreWallets_chainId` with `evmChainId = 137`
on the empty store. -/
theorem generateAndStoreWallets_chainId_witness :
    ∃ r ∈ dbFourWallets.wallets,
      r.id = emptyDb.walletIdCounter ∧
      r.walletType = .ethereum ∧
      r.address = ethW1.address ∧
      r.chainId = some (WalletService.jsOrChainId (some 137) 1) ∧
      ∀ c l, MockDatabase.getWalletsByChainId dbFourWallets "alice" c = .ok l →
        (r ∈ l ↔ WalletService.jsOrChainId (some 137) 1 = c) :=
  generateAndStoreWallets_chainId emptyDb "alice" (some 137) ethW1 btcW1
    solW1 tronW1 9 dbFourWallets (by decide) (by decide)

/-! ## C10 — case-insensitive lookups, exact owner/chain filters -/

/-- `find?` returns the record when it matches and is the only match. -/
theorem find?_eq_some_of_unique {α : Type} (p : α → Bool) :
    ∀ (l : List α) (a : α), a ∈ l → p a = true →
    (∀ b ∈ l, p b = true → b = a) → l.find? p = some a := by
  intro l a ha hpa huniq
  induction l with
  | nil => cases ha
  | cons x xs ih =>
    by_cases hx : p x = true
    · have hxa : x = a := huniq x (List.mem_cons_self x xs) hx
      subst hxa
      simp [List.find?, hx]
    · have hx' : p x = false := by simpa using hx
      rcases List.mem_cons.1 ha with rfl | ha'
      · rw [hpa] at hx'
        cases hx'
      · simp only [List.find?, hx']
        exact ih ha' (fun b hb hpb =>
          huniq b (List.mem_cons_of_mem _ hb) hpb)

/-- **C10** — In the in-memory store, wallet lookup by address and
transaction lookup by external hash are case-insensitive: the queries are
invariant under any change of ASCII letter case of the key, and a stored
record is returned for a query differing from its stored address/hash only
in case (when it is the unique such match, as the counters guarantee for
store-created records); the owner and chain-id filters, by contrast, are
exact equality matches. -/
theorem mock_lookups_case_insensitive :
    (∀ (s : MockDatabase) (u q1 q2 : String), jsToLower q1 = jsToLower q2 →
      MockDatabase.getWallet s u q1 = MockDatabase.getWallet s u q2) ∧
    (∀ (s : MockDatabase) (h1 h2 : String), jsToLower h1 = jsToLower h2 →
      MockDatabase.getTransactionsByHash s h1 =
        MockDatabase.getTransactionsByHash s h2) ∧
    (∀ (s : MockDatabase) (w : WalletRecord) (q : String),
      s.connected = true → w ∈ s.wallets →
      jsToLower q = jsToLower w.address →
      (∀ w' ∈ s.wallets, w'.userId = w.userId →
        jsToLower w'.address = jsToLower w.address → w' = w) →
      MockDatabase.getWallet s w.userId q = .ok (some w)) ∧
    (∀ (s : MockDatabase) (t : TransactionRecord) (q : String),
      s.connected = true → t ∈ s.transactions →
      jsToLower q = jsToLower t.hash →
      (∀ t' ∈ s.transactions, jsToLower t'.hash = jsToLower t.hash → t' = t) →
      MockDatabase.getTransactionsByHash s q = .ok (some t)) ∧
    (∀ (s : MockDatabase) (u : String) (c : Nat) (l : List WalletRecord),
      MockDatabase.getWalletsByChainId s u c = .ok l →
      ∀ w, w ∈ l ↔ w ∈ s.wallets ∧ w.userId = u ∧ w.chainId = some c) ∧
    (∀ (s : MockDatabase) (u : String) (l : List WalletRecord),
      MockDatabase.getWalletsByUser s u = .ok l →
      ∀ w, w ∈ l ↔ w ∈ s.wallets ∧ w.userId = u) := by
  refine ⟨?_, ?_, ?_, ?_, ?_, ?_⟩
  · intro s u q1 q2 hq
    unfold MockDatabase.getWallet
    rw [hq]
  · intro s h1 h2 hq
    unfold MockDatabase.getTransactionsByHash
    rw [hq]
  · intro s w q hconn hw hq huniq
    unfold MockDatabase.getWallet
    rw [if_neg (by simp [hconn])]
    refine congrArg Except.ok (find?_eq_some_of_unique _ s.wallets w hw ?_ ?_)
    · simp [hq]
    · intro b hb hpb
      simp only [Bool.and_eq_true, beq_iff_eq] at hpb
      exact huniq b hb hpb.1 (hpb.2.trans hq)
  · intro s t q hconn ht hq huniq
    unfold MockDatabase.getTransactionsByHash
    rw [if_neg (by simp [hconn])]
    refine congrArg Except.ok (find?_eq_some_of_unique _ s.transactions t ht ?_ ?_)
    · simp [hq]
    · intro b hb hpb
      simp only [beq_iff_eq] at hpb
      exact huniq b hb (hpb.trans hq)
  · intro s u c l hq w
    unfold MockDatabase.getWalletsByChainId at hq
    cases hconn : s.connected with
    | false => rw [if_pos (by simp [hconn])] at hq; cases hq
    | true =>
      rw [if_neg (by simp [hconn])] at hq
      injection hq with hq
      subst hq
      simp only [List.mem_filter, Bool.and_eq_true, beq_iff_eq]
  · intro s u l hq w
    unfold MockDatabase.getWalletsByUser at hq
    cases hconn : s.connected with
    | false => rw [if_pos (by simp [hconn])] at hq; cases hq
    | true =>
      rw [if_neg (by simp [hconn])] at hq
      injection hq with hq
      subst hq
      simp only [List.mem_filter, beq_iff_eq]

/-- Witness for `mock_lookups_case_insensitive`: the stored wallet and
transaction of `mockDb1` are found by upper-cased queries. -/
theorem mock_lookups_case_insensitive_witness :
    MockDatabase.getWallet mockDb1 wallet1.userId "0XABC123" =
      .ok (some wallet1) ∧
    MockDatabase.getTransactionsByHash mockDb1 "0XHASH1" = .ok (some tx1) :=
  ⟨mock_lookups_case_insensitive.2.2.1 mockDb1 wallet1 "0XABC123"
      (by decide) (by decide) (by decide) (by decide),
    mock_lookups_case_insensitive.2.2.2.1 mockDb1 tx1 "0XHASH1"
      (by decide) (by decide) (by decide) (by decide)⟩

end CreateWallet
